import Mathlib

/-!
Verification development for the Bilibili-Favorites-Classifier pipeline.

The Python source is shallowly embedded: pure logic becomes Lean functions,
the event-driven loops (`wait_for_login` polling, pagination) become
functions over an explicit list of remote events, and external library
boundaries (the OpenAI completion call, `json.loads`, the HTTP clients)
become parameters describing the observed outcome of the call.
-/

/-- JSON values as produced by Python's `json.loads`.  Python `None`
(the absent-answer marker the classifier places in failed slots) coincides
with JSON `null`, so `Json.null` plays both roles, exactly as in the source.
Numbers are modelled as integers; no claim depends on float payloads. -/
inductive Json where
  | null
  | bool (b : Bool)
  | num (n : Int)
  | str (s : String)
  | arr (items : List Json)
  | obj (fields : List (String × Json))
deriving Repr

/-- `isinstance(value, list)` test from `ai_classifier.py` line 130. -/
def isList : Json → Bool
  | .arr _ => true
  | _ => false

/-- The `for key, value in result_data.items(): if isinstance(value, list):
classifications = value; break` scan of `ai_classifier.py` lines 129-132:
first value of the mapping, in iteration (= insertion) order, that is a list. -/
def firstListValue : List (String × Json) → Option (List Json)
  | [] => none
  | (_, v) :: rest =>
    match v with
    | .arr l => some l
    | _ => firstListValue rest

/-- Lines 124-132 of `ai_classifier.py`: the `classifications` variable after
the type dispatch on the parsed value (list → itself, dict → first list value,
anything else → still `None`). -/
def extractClassifications : Json → Option (List Json)
  | .arr l => some l
  | .obj kvs => firstListValue kvs
  | _ => none

/-- Lines 122-141 of `ai_classifier.py`, given the result of `json.loads` on
the extracted response text (`none` = `json.JSONDecodeError` was raised).
The guard mirrors Python truthiness: `if classifications and
len(classifications) == len(videos)` is false when `classifications` is
`None` or the empty list. -/
def batchClassifyContent (n : Nat) (parsed : Option Json) : List Json :=
  match parsed with
  | none => List.replicate n .null
  | some j =>
    match extractClassifications j with
    | some cls => if cls.isEmpty = false ∧ cls.length = n then cls else List.replicate n .null
    | none => List.replicate n .null

/-- Outcome of the `chat.completions.create` call in `batch_classify_videos`
(`ai_classifier.py` lines 106-148), abstracted at the library boundary:
`apiError` = `openai.APIError` raised, `otherError` = any other exception,
`noContent` = no choices or empty message content, `content parsed` = a
response body whose fenced-JSON extraction parses (`some`) or fails to parse
(`none`, e.g. the body "no json here"). -/
inductive CompletionOutcome where
  | apiError
  | otherError
  | noContent
  | content (parsed : Option Json)

/-- `AIClassifier.batch_classify_videos` for a batch of `n` videos
(`ai_classifier.py` lines 67-148): every failure path returns
`[None] * len(videos)`; the success path returns the parsed array. -/
def batch_classify_videos (n : Nat) (o : CompletionOutcome) : List Json :=
  match o with
  | .content parsed => batchClassifyContent n parsed
  | _ => List.replicate n .null

/-- One raw entry of the `medias` array of the favorites-contents API
(`bilibili_client.py` lines 90-99).  Fields read with a `.get` default are
`Option`-valued; `id` and `bvid` are read without a default. -/
structure RawMedia where
  id : Int
  bvid : String
  title : Option String
  intro : Option String
  upperName : Option String
deriving Repr, DecidableEq

/-- The `VideoInfo` pydantic model (`models.py` lines 35-41). -/
structure VideoInfo where
  aid : Int
  bvid : String
  title : String
  desc : String
  owner_name : String
deriving Repr, DecidableEq

/-- The `VideoInfo(...)` construction of `bilibili_client.py` lines 93-99,
with the source's `.get` defaults for title, intro and uploader name. -/
def toVideoInfo (m : RawMedia) : VideoInfo :=
  { aid := m.id
    bvid := m.bvid
    title := m.title.getD "无标题"
    desc := m.intro.getD ""
    owner_name := m.upperName.getD "未知UP主" }

/-- `BilibiliClient.get_videos_in_folder` (`bilibili_client.py` lines 60-108)
over the list of successive page responses the server returns.  Each response
is `none` when `response.json().get("data", {})` is falsy (missing or empty),
otherwise `some (medias, has_more)`; a falsy `medias` is modelled by the
empty list.  The returned `Nat` counts the `asyncio.sleep(0.5)` politeness
delays issued between page requests.  An exhausted response list stands for
the remote never answering again, which no claim exercises. -/
def get_videos_in_folder : List (Option (List RawMedia × Bool)) → List VideoInfo × Nat
  | [] => ([], 0)
  | none :: _ => ([], 0)
  | some (medias, hasMore) :: rest =>
    if medias.isEmpty then ([], 0)
    else if hasMore then
      let r := get_videos_in_folder rest
      (medias.map toVideoInfo ++ r.1, r.2 + 1)
    else (medias.map toVideoInfo, 0)

/-- The `FavoriteFolder` pydantic model (`models.py` lines 43-47). -/
structure FavoriteFolder where
  id : Int
  title : String
  media_count : Int
deriving Repr, DecidableEq

/-- Python `str.strip()` (no argument): drop leading and trailing
whitespace, as called in `cli.py` line 191. -/
def pyStrip (s : String) : String :=
  ⟨((s.data.dropWhile Char.isWhitespace).reverse.dropWhile Char.isWhitespace).reverse⟩

/-- Python `str.replace(old, new)` as called in `cli.py` line 191: both call
sites use a one-character pattern and a one-character replacement, for which
Python's `str.replace` is exactly a character-wise map. -/
def replaceChar (old new : Char) (s : String) : String :=
  ⟨s.data.map fun c => if c = old then new else c⟩

/-- Line 191 of `cli.py`:
`res.category.strip().replace("：", "/").replace(":", "/")`. -/
def normalizeCategory (s : String) : String :=
  replaceChar ':' '/' (replaceChar '：' '/' (pyStrip s))

/-- One `d[k] = v` assignment on a Python dict kept as an insertion-ordered
association list: overwrite in place when the key exists, append otherwise. -/
def pyDictSet {β : Type} (d : List (String × β)) (k : String) (v : β) : List (String × β) :=
  if d.any (fun kv => kv.1 == k) then
    d.map (fun kv => if kv.1 == k then (k, v) else kv)
  else d ++ [(k, v)]

/-- Python `dict.get(k)`: the stored value, or `none`. -/
def pyDictGet {β : Type} (d : List (String × β)) (k : String) : Option β :=
  (d.find? (fun kv => kv.1 == k)).map Prod.snd

/-- `folder_map = {f.title: f.id for f in folders}` (`cli.py` line 187). -/
def buildFolderMap (folders : List FavoriteFolder) : List (String × Int) :=
  folders.foldl (fun d f => pyDictSet d f.title f.id) []

/-- Outcome of one `bili_client.move_video` call as observed by the caller:
`ok`/`failed` are its boolean return, `raised` is an exception escaping it. -/
inductive MoveResult where
  | ok
  | failed
  | raised
deriving Repr, DecidableEq

/-- Per-item outcome of the reconciliation loop of `cli.py` lines 189-222.
`skippedInvalid` is the "不在目标列表中" row (the spec's
skipped-invalid-category), `unresolvable` the "内部错误：无法找到收藏夹" row
(the spec's skipped-unresolvable-destination, also taken when the resolved
folder id is falsy), `errorDuringMove` the per-item `except` row. -/
inductive ItemStatus where
  | movedOk
  | moveFailed
  | unresolvable
  | skippedInvalid
  | errorDuringMove
deriving Repr, DecidableEq

/-- The body of the `for res in classification_results` loop of `cli.py`
lines 189-222 for one already-collected answer string: normalize, check
membership in the user-chosen target names, resolve through `folder_map`,
and issue at most one move call.  The `Nat` counts `move_video` calls
(a raised call still counts: it was issued). -/
def processResult (targetNames : List String) (folderMap : List (String × Int))
    (move : Int → MoveResult) (category : String) : ItemStatus × Nat :=
  let cat := normalizeCategory category
  if cat ∈ targetNames then
    match pyDictGet folderMap cat with
    | some fid =>
      if fid ≠ 0 then
        match move fid with
        | .ok => (.movedOk, 1)
        | .failed => (.moveFailed, 1)
        | .raised => (.errorDuringMove, 1)
      else (.unresolvable, 0)
    | none => (.unresolvable, 0)
  else (.skippedInvalid, 0)

/-- The collection loop of `cli.py` lines 165-172: only truthy (non-`None`,
non-empty) categories become `ClassificationResult` entries; falsy ones are
reported as skipped right there and never reach the move loop. -/
def collectResults : List (Option String) → List String
  | [] => []
  | none :: rest => collectResults rest
  | some c :: rest => if c = "" then collectResults rest else c :: collectResults rest

/-- The whole reconciliation loop over the collected results, in order. -/
def reconcileAll (targetNames : List String) (folderMap : List (String × Int))
    (move : Int → MoveResult) : List String → List (ItemStatus × Nat)
  | [] => []
  | c :: rest => processResult targetNames folderMap move c :: reconcileAll targetNames folderMap move rest

/-- One iteration's view of `poll_login_status` inside `wait_for_login`
(`bilibili_auth.py` lines 211-260): either the call raised (`exn`, any
exception — network error, HTTP error, `BilibiliAuthError`), or it returned
its result dict, of which the loop reads the outer API code, the inner login
status code, and (on success) the response object's cookies.  `hasResponse`
models the `result.get('response')` truthiness check on line 219; the real
dict always carries the response object, but the defensive branch is kept. -/
inductive PollEvent where
  | exn
  | ok (apiCode : Int) (innerCode : Int) (respCookies : List (String × String)) (hasResponse : Bool)
deriving Repr

/-- Observable outcome of one `wait_for_login` run: the returned cookie
string (`none` for the expired/timeout/no-response returns), the number of
`poll_login_status` calls issued, and the number of `asyncio.sleep(2)`
retry waits performed. -/
structure WaitRun where
  result : Option String
  polls : Nat
  sleeps : Nat
deriving Repr, DecidableEq

/-- The class constants of `bilibili_auth.py` lines 30-33. -/
def LOGIN_SUCCESS : Int := 0

/-- Inner status code for an expired QR code. -/
def LOGIN_EXPIRED : Int := 86038

/-- Inner status code for scanned-but-unconfirmed. -/
def LOGIN_NOT_CONFIRMED : Int := 86090

/-- Inner status code for not-yet-scanned. -/
def LOGIN_NOT_SCANNED : Int := 86101

/-- `self.base_cookies` (`bilibili_auth.py` lines 58-74).  The two
time-derived values (`b_nut`, `LIVE_BUVID`) are taken as parameters; every
key and every other value is the source's literal. -/
def base_cookies (bNut liveBuvid : String) : List (String × String) :=
  [("buvid3", "127A077B-DE16-7403-BB56-E079C1D9317812887infoc"),
   ("b_nut", bNut),
   ("LIVE_BUVID", liveBuvid),
   ("enable_web_push", "DISABLE"),
   ("theme-tip-show", "SHOWED"),
   ("buvid4", "30194E18-8EDF-DAF4-708E-CCE89784A11D22705-025040510-uWz4dg8nAXqPGuD8wVFEsw%3D%3D"),
   ("home_feed_column", "5"),
   ("theme-avatar-tip-show", "SHOWED"),
   ("CURRENT_QUALITY", "120"),
   ("sid", "qrlogin"),
   ("timeMachine", "0"),
   ("_uuid", "A5C95257-A6A9-10151-474F-241F103C86110557008infoc"),
   ("buvid_fp", "1223ce6c1942b5a12d05f3e4b5662462"),
   ("browser_resolution", "2327-1192"),
   ("CURRENT_FNVAL", "2000")]

/-- Lines 222-230 of `bilibili_auth.py`: `all_cookies = {}`, update with the
base cookies, then assign each cookie set on the successful poll response,
with Python-dict overwrite semantics. -/
def allCookies (base harvested : List (String × String)) : List (String × String) :=
  harvested.foldl (fun d kv => pyDictSet d kv.1 kv.2) base

/-- Lines 233-234 of `bilibili_auth.py`: `"; ".join(f"{key}={value}" ...)`. -/
def cookieString (cs : List (String × String)) : String :=
  String.intercalate "; " (cs.map (fun kv => kv.1 ++ "=" ++ kv.2))

/-- A poll response that makes the `wait_for_login` loop stop: outer API code
0 together with an inner code of success or expiry.  Everything else (raised
call, non-zero outer code, keep-waiting or unknown inner codes) makes the
loop sleep 2 seconds and poll again. -/
def isTerminalPoll : PollEvent → Bool
  | .exn => false
  | .ok api inner _ _ => (api == 0 && inner == LOGIN_SUCCESS) || (api == 0 && inner == LOGIN_EXPIRED)

/-- `BilibiliAuth.wait_for_login` (`bilibili_auth.py` lines 207-263) over an
explicit schedule of poll events.  Each list entry `(t, e)` carries the
elapsed wall-clock reading `t = time.time() - start_time` observed at the
`while` check that precedes the poll, and the poll's outcome `e`; the clock
is data, so arbitrary jumps between iterations are covered.  The `while`
guard rejects `t ≥ timeout` without polling.  An exhausted schedule stands
for a run whose remaining iterations are all guard failures. -/
def wait_for_login (timeout : Int) (base : List (String × String)) :
    List (Int × PollEvent) → WaitRun
  | [] => ⟨none, 0, 0⟩
  | (t, e) :: rest =>
    if t < timeout then
      match e with
      | .exn =>
        let r := wait_for_login timeout base rest
        ⟨r.result, r.polls + 1, r.sleeps + 1⟩
      | .ok api inner cs hasResp =>
        if api = 0 ∧ inner = LOGIN_SUCCESS then
          if hasResp then ⟨some (cookieString (allCookies base cs)), 1, 0⟩
          else ⟨none, 1, 0⟩
        else if api = 0 ∧ inner = LOGIN_EXPIRED then ⟨none, 1, 0⟩
        else if api = 0 ∧ (inner = LOGIN_NOT_SCANNED ∨ inner = LOGIN_NOT_CONFIRMED) then
          let r := wait_for_login timeout base rest
          ⟨r.result, r.polls + 1, r.sleeps + 1⟩
        else
          let r := wait_for_login timeout base rest
          ⟨r.result, r.polls + 1, r.sleeps + 1⟩
    else ⟨none, 0, 0⟩

/-- `part` occurs as a contiguous substring of `whole` (stated on the
underlying character lists). -/
def occursIn (part whole : String) : Prop :=
  ∃ s t : List Char, whole.data = s ++ part.data ++ t

theorem firstListValue_append_arr (pre post : List (String × Json)) (k : String) (l : List Json)
    (h : ∀ kv ∈ pre, isList kv.2 = false) :
    firstListValue (pre ++ (k, .arr l) :: post) = some l := by
  induction pre with
  | nil => rfl
  | cons kv pre ih =>
    have hkv : isList kv.2 = false := h kv (List.mem_cons_self kv pre)
    have hrest : ∀ kv ∈ pre, isList kv.2 = false := fun x hx => h x (List.mem_cons_of_mem kv hx)
    obtain ⟨k', v⟩ := kv
    cases v
    case arr items => simp [isList] at hkv
    all_goals simpa [firstListValue] using ih hrest

theorem firstListValue_eq_none (kvs : List (String × Json))
    (h : ∀ kv ∈ kvs, isList kv.2 = false) :
    firstListValue kvs = none := by
  induction kvs with
  | nil => rfl
  | cons kv kvs ih =>
    have hkv : isList kv.2 = false := h kv (List.mem_cons_self kv kvs)
    have hrest : ∀ kv ∈ kvs, isList kv.2 = false := fun x hx => h x (List.mem_cons_of_mem kv hx)
    obtain ⟨k', v⟩ := kv
    cases v
    case arr items => simp [isList] at hkv
    all_goals simpa [firstListValue] using ih hrest

/-- C1: if the model response parses as a JSON array of exactly the batch
length, `batch_classify_videos` returns that array element-wise in order;
if the array's length differs from the batch length it returns a batch-length
sequence of absent markers, with no truncation, padding or partial
alignment. -/
theorem batch_classify_array_roundtrip (n : Nat) (l : List Json) :
    (l.length = n → batch_classify_videos n (.content (some (.arr l))) = l) ∧
    (l.length ≠ n → batch_classify_videos n (.content (some (.arr l))) = List.replicate n .null) := by
  constructor
  · intro h
    cases l with
    | nil => simp [batch_classify_videos, batchClassifyContent, extractClassifications, ← h]
    | cons a as =>
      simp only [batch_classify_videos, batchClassifyContent, extractClassifications]
      rw [if_pos ⟨by simp, h⟩]
  · intro h
    simp only [batch_classify_videos, batchClassifyContent, extractClassifications]
    rw [if_neg (fun hc => h hc.2)]

theorem batch_classify_array_roundtrip_witness :
    (batch_classify_videos 2 (.content (some (.arr [Json.str "A", Json.str "B"]))) =
      [Json.str "A", Json.str "B"]) ∧
    (batch_classify_videos 3 (.content (some (.arr [Json.str "A", Json.str "B"]))) =
      List.replicate 3 .null) :=
  ⟨(batch_classify_array_roundtrip 2 [Json.str "A", Json.str "B"]).1 rfl,
   (batch_classify_array_roundtrip 3 [Json.str "A", Json.str "B"]).2 (by decide)⟩

/-- C2: a response body that fails to parse as JSON (for example
"no json here"), an API error, any other exception, and an empty completion
all yield the all-absent sequence of exactly the batch length; the function
is total, so no input raises. -/
theorem batch_classify_failure_all_absent (n : Nat) :
    batch_classify_videos n (.content none) = List.replicate n .null ∧
    batch_classify_videos n .apiError = List.replicate n .null ∧
    batch_classify_videos n .otherError = List.replicate n .null ∧
    batch_classify_videos n .noContent = List.replicate n .null ∧
    (batch_classify_videos n (.content none)).length = n := by
  refine ⟨rfl, rfl, rfl, rfl, ?_⟩
  simp [batch_classify_videos, batchClassifyContent]

/-- C3: when the response parses as a keyed mapping, the values are scanned
in iteration order and the first value that is itself a list is used exactly
as a directly-returned array would be; a mapping none of whose values is a
list fails the whole batch. -/
theorem batch_classify_object_scan (n : Nat) (pre post : List (String × Json)) (k : String) (l : List Json) :
    ((∀ kv ∈ pre, isList kv.2 = false) →
      batch_classify_videos n (.content (some (.obj (pre ++ (k, .arr l) :: post)))) =
        batch_classify_videos n (.content (some (.arr l)))) ∧
    (∀ kvs : List (String × Json), (∀ kv ∈ kvs, isList kv.2 = false) →
      batch_classify_videos n (.content (some (.obj kvs))) = List.replicate n .null) := by
  constructor
  · intro h
    simp only [batch_classify_videos, batchClassifyContent, extractClassifications,
      firstListValue_append_arr pre post k l h]
  · intro kvs h
    simp only [batch_classify_videos, batchClassifyContent, extractClassifications,
      firstListValue_eq_none kvs h]

theorem batch_classify_object_scan_witness :
    (batch_classify_videos 2 (.content (some (.obj
        [("note", Json.str "x"), ("classifications", Json.arr [Json.str "A", Json.str "B"])]))) =
      batch_classify_videos 2 (.content (some (.arr [Json.str "A", Json.str "B"])))) ∧
    (batch_classify_videos 2 (.content (some (.obj [("a", Json.num 1)]))) =
      List.replicate 2 .null) :=
  ⟨(batch_classify_object_scan 2 [("note", Json.str "x")] [] "classifications"
      [Json.str "A", Json.str "B"]).1
      (fun kv hkv => by rw [List.mem_singleton] at hkv; subst hkv; rfl),
   (batch_classify_object_scan 2 [] [] "k" []).2 [("a", Json.num 1)]
      (fun kv hkv => by rw [List.mem_singleton] at hkv; subst hkv; rfl)⟩

/-- C4: the pagination loop keeps requesting the next page while the page
just returned is non-empty and the service signals more pages, stops
otherwise, returns the concatenation of all pages in server order, and
sleeps once between consecutive page requests (one delay per page that had
`has_more` set). -/
theorem get_videos_pagination (initPages : List (List RawMedia)) (lastPage : List RawMedia)
    (h1 : ∀ p ∈ initPages, p ≠ []) (h2 : lastPage ≠ []) :
    get_videos_in_folder (initPages.map (fun p => some (p, true)) ++ [some (lastPage, false)]) =
      (((initPages ++ [lastPage]).map (fun p => List.map toVideoInfo p)).flatten,
        initPages.length) ∧
    (∀ rest b, get_videos_in_folder (some ([], b) :: rest) = ([], 0)) ∧
    (∀ rest, get_videos_in_folder (none :: rest) = ([], 0)) := by
  refine ⟨?_, fun rest b => rfl, fun rest => rfl⟩
  induction initPages with
  | nil =>
    cases lastPage with
    | nil => exact absurd rfl h2
    | cons a as => simp [get_videos_in_folder]
  | cons p ps ih =>
    have hp : p ≠ [] := h1 p (List.mem_cons_self p ps)
    have hps : ∀ q ∈ ps, q ≠ [] := fun q hq => h1 q (List.mem_cons_of_mem p hq)
    cases p with
    | nil => exact absurd rfl hp
    | cons a as =>
      simp only [List.map_cons, List.cons_append, get_videos_in_folder, List.isEmpty_cons,
        Bool.false_eq_true, if_false, if_true, List.append_eq, ih hps, List.flatten_cons,
        List.length_cons]

/-- A concrete media entry used by witness instances. -/
def sampleMedia : RawMedia :=
  { id := 1, bvid := "BV1xx411c7mD", title := some "t", intro := some "d", upperName := some "u" }

theorem get_videos_pagination_witness :
    (get_videos_in_folder
        ([List.replicate 20 sampleMedia, List.replicate 20 sampleMedia].map (fun p => some (p, true)) ++
          [some (List.replicate 7 sampleMedia, false)])).1.length = 47 ∧
    (get_videos_in_folder
        ([List.replicate 20 sampleMedia, List.replicate 20 sampleMedia].map (fun p => some (p, true)) ++
          [some (List.replicate 7 sampleMedia, false)])).2 = 2 := by
  have h := (get_videos_pagination [List.replicate 20 sampleMedia, List.replicate 20 sampleMedia]
      (List.replicate 7 sampleMedia) (by decide) (by decide)).1
  rw [h]
  exact ⟨rfl, rfl⟩

/-- C8: the normalization collapses the fullwidth and ASCII colon to the
same separator, so "A：B" and "A:B" normalize identically; the answer
"Music：Live" normalizes to the target category "Music/Live" and resolves,
by exact-title lookup in the map built from the full folder list, to that
folder's id (42 here), to which the move is issued. -/
theorem reconcile_colon_normalization :
    normalizeCategory "A：B" = normalizeCategory "A:B" ∧
    normalizeCategory "Music：Live" = "Music/Live" ∧
    pyDictGet (buildFolderMap
        [{ id := 7, title := "Inbox", media_count := 100 },
         { id := 42, title := "Music/Live", media_count := 3 }]) "Music/Live" = some 42 ∧
    processResult ["Music/Live"]
        (buildFolderMap
          [{ id := 7, title := "Inbox", media_count := 100 },
           { id := 42, title := "Music/Live", media_count := 3 }])
        (fun fid => if fid = 42 then .ok else .failed) "Music：Live" =
      (.movedOk, 1) := by
  refine ⟨by decide, by decide, by decide, by decide⟩

/-- C9: an answer whose normalized form is not in the caller-supplied target
set is marked skipped-invalid-category with zero move calls; the skip leaves
the processing of every other item untouched (the loop is a pointwise map);
and an absent answer is dropped by the collection loop before the move loop,
so it also triggers zero move calls. -/
theorem reconcile_invalid_category_skip (targetNames : List String)
    (folderMap : List (String × Int)) (move : Int → MoveResult) (c : String)
    (h : normalizeCategory c ∉ targetNames) :
    processResult targetNames folderMap move c = (.skippedInvalid, 0) ∧
    (∀ others, reconcileAll targetNames folderMap move (c :: others) =
      (ItemStatus.skippedInvalid, 0) :: reconcileAll targetNames folderMap move others) ∧
    (∀ l : List String, reconcileAll targetNames folderMap move l =
      l.map (processResult targetNames folderMap move)) ∧
    (∀ rest, collectResults (none :: rest) = collectResults rest) := by
  have h1 : processResult targetNames folderMap move c = (.skippedInvalid, 0) := by
    simp only [processResult]
    rw [if_neg h]
  refine ⟨h1, fun others => ?_, fun l => ?_, fun rest => rfl⟩
  · show processResult targetNames folderMap move c ::
      reconcileAll targetNames folderMap move others = _
    rw [h1]
  · induction l with
    | nil => rfl
    | cons x xs ih => simp only [reconcileAll, ih, List.map_cons]

theorem reconcile_invalid_category_skip_witness :
    normalizeCategory "C" ∉ ["A", "B"] ∧
    processResult ["A", "B"] [("A", 1)] (fun _ => .ok) "C" = (.skippedInvalid, 0) :=
  ⟨by decide,
   (reconcile_invalid_category_skip ["A", "B"] [("A", 1)] (fun _ => .ok) "C" (by decide)).1⟩

/-- The key list of a Python-dict association list. -/
def dictKeys {β : Type} (d : List (String × β)) : List String := d.map Prod.fst

theorem mem_dictKeys_pyDictSet_of_mem {β : Type} (d : List (String × β)) (k : String) (v : β)
    (k' : String) (h : k' ∈ dictKeys d) : k' ∈ dictKeys (pyDictSet d k v) := by
  unfold pyDictSet
  split
  · obtain ⟨kv, hkv, rfl⟩ := List.mem_map.mp h
    refine List.mem_map.mpr ⟨if kv.1 == k then (k, v) else kv, List.mem_map_of_mem _ hkv, ?_⟩
    by_cases hb : kv.1 == k
    · simp only [hb, if_pos]
      exact (eq_of_beq hb).symm
    · simp only [hb, if_neg]
      rfl
  · obtain ⟨kv, hkv, rfl⟩ := List.mem_map.mp h
    exact List.mem_map.mpr ⟨kv, List.mem_append_left _ hkv, rfl⟩

theorem mem_dictKeys_pyDictSet_self {β : Type} (d : List (String × β)) (k : String) (v : β) :
    k ∈ dictKeys (pyDictSet d k v) := by
  unfold pyDictSet
  split
  case isTrue hany =>
    obtain ⟨kv, hkv, hb⟩ := List.any_eq_true.mp hany
    refine List.mem_map.mpr ⟨if kv.1 == k then (k, v) else kv, List.mem_map_of_mem _ hkv, ?_⟩
    rw [if_pos hb]
  case isFalse hany =>
    exact List.mem_map.mpr ⟨(k, v), List.mem_append_right _ (List.mem_singleton.mpr rfl), rfl⟩

theorem mem_dictKeys_allCookies_of_base (base cs : List (String × String)) (k : String)
    (h : k ∈ dictKeys base) : k ∈ dictKeys (allCookies base cs) := by
  induction cs generalizing base with
  | nil => exact h
  | cons kv cs ih => exact ih _ (mem_dictKeys_pyDictSet_of_mem base kv.1 kv.2 k h)

theorem mem_dictKeys_allCookies_of_harvested (base cs : List (String × String))
    (kv : String × String) (h : kv ∈ cs) : kv.1 ∈ dictKeys (allCookies base cs) := by
  induction cs generalizing base with
  | nil => cases h
  | cons kv' cs ih =>
    rcases List.mem_cons.mp h with rfl | hmem
    · exact mem_dictKeys_allCookies_of_base _ cs kv.1
        (mem_dictKeys_pyDictSet_self base kv.1 kv.2)
    · exact ih _ hmem


theorem intercalate_go_data (sep : String) (ss : List String) :
    ∀ acc : String, ∃ t : List Char,
      (String.intercalate.go acc sep ss).data = acc.data ++ t := by
  induction ss with
  | nil => exact fun acc => ⟨[], (List.append_nil acc.data).symm⟩
  | cons a as ih =>
    intro acc
    obtain ⟨t, h⟩ := ih (acc ++ sep ++ a)
    refine ⟨sep.data ++ a.data ++ t, ?_⟩
    rw [show String.intercalate.go acc sep (a :: as) =
      String.intercalate.go (acc ++ sep ++ a) sep as from rfl, h]
    simp [List.append_assoc]

theorem intercalate_go_mem_data (sep : String) (ss : List String) :
    ∀ acc a, a ∈ ss → ∃ p t : List Char,
      (String.intercalate.go acc sep ss).data = p ++ a.data ++ t := by
  induction ss with
  | nil => intro acc a h; cases h
  | cons b bs ih =>
    intro acc a h
    rcases List.mem_cons.mp h with rfl | hmem
    · obtain ⟨t, hgo⟩ := intercalate_go_data sep bs (acc ++ sep ++ a)
      refine ⟨acc.data ++ sep.data, t, ?_⟩
      rw [show String.intercalate.go acc sep (a :: bs) =
        String.intercalate.go (acc ++ sep ++ a) sep bs from rfl, hgo]
      simp [List.append_assoc]
    · exact ih (acc ++ sep ++ b) a hmem

theorem occursIn_intercalate (sep : String) (ss : List String) (a : String) (h : a ∈ ss) :
    occursIn a (String.intercalate sep ss) := by
  cases ss with
  | nil => cases h
  | cons b bs =>
    rcases List.mem_cons.mp h with rfl | hmem
    · obtain ⟨t, hgo⟩ := intercalate_go_data sep bs a
      exact ⟨[], t, hgo⟩
    · obtain ⟨p, t, hgo⟩ := intercalate_go_mem_data sep bs b a hmem
      exact ⟨p, t, hgo⟩

theorem occursIn_of_occursIn_append_left (a b w : String) (h : occursIn (a ++ b) w) :
    occursIn a w := by
  obtain ⟨s, t, hw⟩ := h
  exact ⟨s, b.data ++ t, by rw [hw]; simp [List.append_assoc]⟩

theorem occursIn_key_cookieString (cs : List (String × String)) (k : String)
    (h : k ∈ dictKeys cs) : occursIn k (cookieString cs) := by
  obtain ⟨kv, hkv, rfl⟩ := List.mem_map.mp h
  have hocc : occursIn (kv.1 ++ "=" ++ kv.2) (cookieString cs) :=
    occursIn_intercalate "; " (cs.map (fun q => q.1 ++ "=" ++ q.2)) (kv.1 ++ "=" ++ kv.2)
      (List.mem_map_of_mem _ hkv)
  exact occursIn_of_occursIn_append_left kv.1 "=" _
    (occursIn_of_occursIn_append_left (kv.1 ++ "=") kv.2 _ hocc)

theorem occursIn_ne_empty (a w : String) (ha : a.data ≠ []) (h : occursIn a w) : w ≠ "" := by
  obtain ⟨s, t, hw⟩ := h
  intro hcon
  rw [hcon] at hw
  have : ([] : List Char) = s ++ a.data ++ t := hw
  rcases List.append_eq_nil.mp this.symm with ⟨h1, -⟩
  exact ha (List.append_eq_nil.mp h1).2

theorem cookieString_ne_empty (cs : List (String × String)) (h : cs ≠ []) :
    cookieString cs ≠ "" := by
  cases cs with
  | nil => exact absurd rfl h
  | cons kv rest =>
    have hpart : kv.1 ++ "=" ++ kv.2 ∈ (kv :: rest).map (fun kv => kv.1 ++ "=" ++ kv.2) :=
      List.mem_map_of_mem _ (List.mem_cons_self kv rest)
    have hocc : occursIn (kv.1 ++ "=" ++ kv.2) (cookieString (kv :: rest)) :=
      occursIn_intercalate "; " _ _ hpart
    refine occursIn_ne_empty _ _ ?_ hocc
    show kv.1.data ++ "=".data ++ kv.2.data ≠ []
    intro hd
    rcases List.append_eq_nil.mp hd with ⟨h1, -⟩
    rcases List.append_eq_nil.mp h1 with ⟨-, h2⟩
    simp at h2

theorem wait_for_login_guard_fail (timeout : Int) (base : List (String × String))
    (t : Int) (e : PollEvent) (rest : List (Int × PollEvent)) (ht : ¬ t < timeout) :
    wait_for_login timeout base ((t, e) :: rest) = ⟨none, 0, 0⟩ := by
  simp only [wait_for_login, if_neg ht]

theorem wait_for_login_step (timeout : Int) (base : List (String × String))
    (t : Int) (e : PollEvent) (rest : List (Int × PollEvent)) (ht : t < timeout)
    (he : isTerminalPoll e = false) :
    wait_for_login timeout base ((t, e) :: rest) =
      ⟨(wait_for_login timeout base rest).result,
       (wait_for_login timeout base rest).polls + 1,
       (wait_for_login timeout base rest).sleeps + 1⟩ := by
  cases e with
  | exn => simp only [wait_for_login, if_pos ht]
  | ok api inner cs hr =>
    have h1 : ¬(api = 0 ∧ inner = LOGIN_SUCCESS) := by
      rintro ⟨rfl, rfl⟩
      simp [isTerminalPoll] at he
    have h2 : ¬(api = 0 ∧ inner = LOGIN_EXPIRED) := by
      rintro ⟨rfl, rfl⟩
      simp [isTerminalPoll] at he
    simp only [wait_for_login, if_pos ht, if_neg h1, if_neg h2]
    split <;> rfl

theorem wait_for_login_success_step (timeout : Int) (base : List (String × String))
    (t : Int) (cs : List (String × String)) (rest : List (Int × PollEvent)) (ht : t < timeout) :
    wait_for_login timeout base ((t, PollEvent.ok 0 LOGIN_SUCCESS cs true) :: rest) =
      ⟨some (cookieString (allCookies base cs)), 1, 0⟩ := by
  simp [wait_for_login, ht, LOGIN_SUCCESS, LOGIN_EXPIRED]

theorem wait_for_login_expired_step (timeout : Int) (base : List (String × String))
    (t : Int) (cs : List (String × String)) (hr : Bool) (rest : List (Int × PollEvent))
    (ht : t < timeout) :
    wait_for_login timeout base ((t, PollEvent.ok 0 LOGIN_EXPIRED cs hr) :: rest) =
      ⟨none, 1, 0⟩ := by
  simp [wait_for_login, ht, LOGIN_SUCCESS, LOGIN_EXPIRED]

theorem wait_for_login_run_through (timeout : Int) (base : List (String × String))
    (pre tail : List (Int × PollEvent))
    (hpre : ∀ p ∈ pre, p.1 < timeout ∧ isTerminalPoll p.2 = false) :
    wait_for_login timeout base (pre ++ tail) =
      ⟨(wait_for_login timeout base tail).result,
       (wait_for_login timeout base tail).polls + pre.length,
       (wait_for_login timeout base tail).sleeps + pre.length⟩ := by
  induction pre with
  | nil => simp
  | cons p ps ih =>
    obtain ⟨hp1, hp2⟩ := hpre p (List.mem_cons_self p ps)
    have hps : ∀ q ∈ ps, q.1 < timeout ∧ isTerminalPoll q.2 = false :=
      fun q hq => hpre q (List.mem_cons_of_mem p hq)
    obtain ⟨t, e⟩ := p
    rw [List.cons_append, wait_for_login_step timeout base t e (ps ++ tail) hp1 hp2, ih hps]
    rfl

/-- C5: a poll schedule of non-terminal responses followed, still inside the
timeout, by a poll whose outer and inner codes are both 0 makes
`wait_for_login` return (with no further polls) the non-empty cookie string
built from the base cookies updated with the cookies of the successful
response; that string contains every base cookie key and every harvested
session cookie key. -/
theorem wait_for_login_success_cookies (timeout : Int) (base : List (String × String))
    (pre : List (Int × PollEvent)) (t : Int) (cs : List (String × String))
    (rest : List (Int × PollEvent))
    (hbase : base ≠ [])
    (hpre : ∀ p ∈ pre, p.1 < timeout ∧ isTerminalPoll p.2 = false)
    (ht : t < timeout) :
    (wait_for_login timeout base
        (pre ++ (t, PollEvent.ok 0 LOGIN_SUCCESS cs true) :: rest)).result =
      some (cookieString (allCookies base cs)) ∧
    (wait_for_login timeout base
        (pre ++ (t, PollEvent.ok 0 LOGIN_SUCCESS cs true) :: rest)).polls = pre.length + 1 ∧
    cookieString (allCookies base cs) ≠ "" ∧
    (∀ k ∈ dictKeys base, occursIn k (cookieString (allCookies base cs))) ∧
    (∀ kv ∈ cs, occursIn kv.1 (cookieString (allCookies base cs))) := by
  have hrun := wait_for_login_run_through timeout base pre
    ((t, PollEvent.ok 0 LOGIN_SUCCESS cs true) :: rest) hpre
  rw [wait_for_login_success_step timeout base t cs rest ht] at hrun
  have hne : allCookies base cs ≠ [] := by
    cases base with
    | nil => exact absurd rfl hbase
    | cons b bs =>
      intro hc
      have hmem : b.1 ∈ dictKeys (allCookies (b :: bs) cs) :=
        mem_dictKeys_allCookies_of_base _ cs b.1
          (List.mem_map_of_mem _ (List.mem_cons_self b bs))
      rw [hc] at hmem
      cases hmem
  refine ⟨by rw [hrun], by rw [hrun]; exact Nat.add_comm 1 pre.length,
    cookieString_ne_empty _ hne, ?_, ?_⟩
  · intro k hk
    exact occursIn_key_cookieString _ k (mem_dictKeys_allCookies_of_base base cs k hk)
  · intro kv hkv
    exact occursIn_key_cookieString _ kv.1 (mem_dictKeys_allCookies_of_harvested base cs kv hkv)

theorem wait_for_login_success_cookies_witness :
    (wait_for_login 180 (base_cookies "0" "AUTO0")
        ([(0, PollEvent.exn), (2, PollEvent.ok 0 86101 [] true)] ++
          (4, PollEvent.ok 0 LOGIN_SUCCESS [("SESSDATA", "s")] true) :: [])).result =
      some (cookieString (allCookies (base_cookies "0" "AUTO0") [("SESSDATA", "s")])) ∧
    (wait_for_login 180 (base_cookies "0" "AUTO0")
        ([(0, PollEvent.exn), (2, PollEvent.ok 0 86101 [] true)] ++
          (4, PollEvent.ok 0 LOGIN_SUCCESS [("SESSDATA", "s")] true) :: [])).polls = 3 := by
  have h := wait_for_login_success_cookies 180 (base_cookies "0" "AUTO0")
    [(0, PollEvent.exn), (2, PollEvent.ok 0 86101 [] true)] 4 [("SESSDATA", "s")] []
    (by decide) (by decide) (by decide)
  exact ⟨h.1, h.2.1⟩

/-- C6 as frozen is false on the code: a poll response carrying inner status
86038 but a non-zero outer API code does not terminate the loop; here such a
response is followed by a success, and the run returns a cookie string
(not absent) after issuing a second poll. -/
theorem wait_for_login_inner_expired_cex :
    (wait_for_login 180 (base_cookies "0" "AUTO0")
        [(0, PollEvent.ok (-1) 86038 [] true),
         (2, PollEvent.ok 0 0 [("SESSDATA", "s")] true)]).result ≠ none ∧
    (wait_for_login 180 (base_cookies "0" "AUTO0")
        [(0, PollEvent.ok (-1) 86038 [] true),
         (2, PollEvent.ok 0 0 [("SESSDATA", "s")] true)]).polls = 2 := by
  decide

/-- C6 amended: when the expired response also carries outer API code 0 (and
is reached inside the timeout after non-terminal polls), `wait_for_login`
returns absent immediately and issues no poll after the expired response. -/
theorem wait_for_login_expired_gated (timeout : Int) (base : List (String × String))
    (pre : List (Int × PollEvent)) (t : Int) (cs : List (String × String)) (hr : Bool)
    (rest : List (Int × PollEvent))
    (hpre : ∀ p ∈ pre, p.1 < timeout ∧ isTerminalPoll p.2 = false)
    (ht : t < timeout) :
    (wait_for_login timeout base
        (pre ++ (t, PollEvent.ok 0 LOGIN_EXPIRED cs hr) :: rest)).result = none ∧
    (wait_for_login timeout base
        (pre ++ (t, PollEvent.ok 0 LOGIN_EXPIRED cs hr) :: rest)).polls = pre.length + 1 := by
  have hrun := wait_for_login_run_through timeout base pre
    ((t, PollEvent.ok 0 LOGIN_EXPIRED cs hr) :: rest) hpre
  rw [wait_for_login_expired_step timeout base t cs hr rest ht] at hrun
  rw [hrun]
  exact ⟨rfl, Nat.add_comm 1 pre.length⟩

theorem wait_for_login_expired_gated_witness :
    (wait_for_login 180 (base_cookies "0" "AUTO0")
        ([(0, PollEvent.exn)] ++ (2, PollEvent.ok 0 LOGIN_EXPIRED [] true) ::
          [(4, PollEvent.ok 0 LOGIN_SUCCESS [("SESSDATA", "s")] true)])).result = none ∧
    (wait_for_login 180 (base_cookies "0" "AUTO0")
        ([(0, PollEvent.exn)] ++ (2, PollEvent.ok 0 LOGIN_EXPIRED [] true) ::
          [(4, PollEvent.ok 0 LOGIN_SUCCESS [("SESSDATA", "s")] true)])).polls = 2 := by
  have h := wait_for_login_expired_gated 180 (base_cookies "0" "AUTO0")
    [(0, PollEvent.exn)] 2 [] true [(4, PollEvent.ok 0 LOGIN_SUCCESS [("SESSDATA", "s")] true)]
    (by decide) (by decide)
  exact ⟨h.1, h.2⟩

/-- C7: if no poll observed before the deadline is terminal (success or
expiry with outer code 0), the loop returns absent, every poll it issued was
preceded by a wall-clock check strictly below the timeout (the bound is the
measured elapsed time of each iteration, whatever the clock jumps are, not
an iteration count), and every issued poll — including raised calls and
unexpected status codes, which are swallowed — was followed by one fixed
2-second retry sleep. -/
theorem wait_for_login_timeout_bound (timeout : Int) (base : List (String × String))
    (events : List (Int × PollEvent))
    (h : ∀ p ∈ events, p.1 < timeout → isTerminalPoll p.2 = false) :
    (wait_for_login timeout base events).result = none ∧
    (∀ p ∈ events.take (wait_for_login timeout base events).polls, p.1 < timeout) ∧
    (wait_for_login timeout base events).sleeps = (wait_for_login timeout base events).polls := by
  induction events with
  | nil => exact ⟨rfl, by simp, rfl⟩
  | cons pe rest ih =>
    obtain ⟨t, e⟩ := pe
    by_cases ht : t < timeout
    · have he : isTerminalPoll e = false := h (t, e) (List.mem_cons_self _ _) ht
      have hrest : ∀ p ∈ rest, p.1 < timeout → isTerminalPoll p.2 = false :=
        fun p hp => h p (List.mem_cons_of_mem _ hp)
      obtain ⟨ih1, ih2, ih3⟩ := ih hrest
      rw [wait_for_login_step timeout base t e rest ht he]
      refine ⟨ih1, ?_, by rw [ih3]⟩
      intro p hp
      rw [List.take_succ_cons] at hp
      rcases List.mem_cons.mp hp with rfl | hmem
      · exact ht
      · exact ih2 p hmem
    · rw [wait_for_login_guard_fail timeout base t e rest ht]
      exact ⟨rfl, by simp, rfl⟩

theorem wait_for_login_timeout_bound_witness :
    (wait_for_login 180 (base_cookies "0" "AUTO0")
        [(0, PollEvent.exn), (2, PollEvent.ok (-1) 0 [] true),
         (200, PollEvent.ok 0 0 [("SESSDATA", "s")] true)]).result = none :=
  (wait_for_login_timeout_bound 180 (base_cookies "0" "AUTO0")
    [(0, PollEvent.exn), (2, PollEvent.ok (-1) 0 [] true),
     (200, PollEvent.ok 0 0 [("SESSDATA", "s")] true)] (by decide)).1

/-- C10: a poll response whose outer API code is non-zero never terminates
the loop, whatever its inner code (0 included): the run continues on the
remaining schedule with one more poll and one more fixed-interval sleep, and
in particular produces no token set from that response. -/
theorem wait_for_login_outer_code_gate (timeout : Int) (base : List (String × String))
    (t api inner : Int) (cs : List (String × String)) (hr : Bool)
    (rest : List (Int × PollEvent)) (hapi : api ≠ 0) (ht : t < timeout) :
    wait_for_login timeout base ((t, PollEvent.ok api inner cs hr) :: rest) =
      ⟨(wait_for_login timeout base rest).result,
       (wait_for_login timeout base rest).polls + 1,
       (wait_for_login timeout base rest).sleeps + 1⟩ := by
  apply wait_for_login_step timeout base t _ rest ht
  simp [isTerminalPoll, hapi]

theorem wait_for_login_outer_code_gate_witness :
    ((-1 : Int) ≠ 0) ∧
    wait_for_login 180 (base_cookies "0" "AUTO0") [(0, PollEvent.ok (-1) 0 [] true)] =
      ⟨(wait_for_login 180 (base_cookies "0" "AUTO0") []).result,
       (wait_for_login 180 (base_cookies "0" "AUTO0") []).polls + 1,
       (wait_for_login 180 (base_cookies "0" "AUTO0") []).sleeps + 1⟩ :=
  ⟨by decide,
   wait_for_login_outer_code_gate 180 (base_cookies "0" "AUTO0") 0 (-1) 0 [] true []
     (by decide) (by decide)⟩
